import Mathlib

/-!
Shallow embedding of src/lib/mockery.js: a library that hooks the host module
loader so tests can substitute mocks, redirections and allow-listed
pass-throughs.  Registries and the host module cache are host-language
dictionaries (objects with a null prototype), modelled as ordered association
lists; the host module system (resolver, original loader, cache, load slot) is
an external collaborator, modelled by a `Host` record plus explicit fields of
the machine state.  Operations that can throw return the state paired with an
`Except`, so mutations performed before a throw are preserved.
-/

set_option autoImplicit false

namespace Mockery

/-- Canonical resolved module identity, the key of every registry. -/
abbrev Key := String

/-- Dynamic host-language values: mock payloads, substitute arguments and
module export objects.  Mock values are uninterpreted payloads; the registry
stores and returns them without inspecting their shape. -/
inductive JSVal where
  | vnull : JSVal
  | vbool : Bool → JSVal
  | vnum : Int → JSVal
  | vstr : String → JSVal
  | vobj : Nat → JSVal
deriving DecidableEq

/-- typeof v === "string" in the host language. -/
def JSVal.isString : JSVal → Bool
  | JSVal.vstr _ => true
  | _ => false

/-- The stored substitute name: a string value is kept, the null marker
becomes `none`.  Only reached after the string-or-null guard of
`registerSubstitute`. -/
def JSVal.asSubstituteName : JSVal → Option String
  | JSVal.vstr s => some s
  | _ => none

/-- A host-language dictionary (object created by blank()): ordered key-value
pairs with unique keys.  Assignment overwrites in place or appends, delete
removes the pair. -/
abbrev Dict (α : Type) := List (Key × α)

/-- Lookup of a key (hasOwnProperty + property read). -/
def Dict.find? {α : Type} : Dict α → Key → Option α
  | [], _ => none
  | (k2, v) :: rest, k => if k2 = k then some v else Dict.find? rest k

/-- Property assignment obj[k] = v: overwrite in place if present, else
append at the end. -/
def Dict.set {α : Type} : Dict α → Key → α → Dict α
  | [], k, v => [(k, v)]
  | (k2, v2) :: rest, k, v =>
      if k2 = k then (k2, v) :: rest else (k2, v2) :: Dict.set rest k v

/-- Property deletion: delete obj[k]. -/
def Dict.del {α : Type} : Dict α → Key → Dict α
  | [], _ => []
  | (k2, v2) :: rest, k => if k2 = k then rest else (k2, v2) :: Dict.del rest k

/-- The keys of the dictionary are pairwise distinct, as they are for every
host-language object. -/
abbrev DictNodup {α : Type} (d : Dict α) : Prop := (d.map Prod.fst).Nodup

/-- A thrown host-language Error: its message and optional code property. -/
structure JSErr where
  message : String
  code : Option String
deriving DecidableEq

/-- The single-quote character, written by code point to keep string literals
plain. -/
def squote : String := String.singleton (Char.ofNat 39)

/-- Source createModuleNotFoundError: an Error whose message quotes the
requested name and whose code is MODULE_NOT_FOUND. -/
def createModuleNotFoundError (request : String) : JSErr :=
  { message := "Cannot find module " ++ squote ++ request ++ squote,
    code := some "MODULE_NOT_FOUND" }

/-- Error thrown by hookedLoader when invoked while not hooked. -/
def loaderNotHookedError : JSErr :=
  { message := "Loader has not been hooked", code := none }

/-- Error thrown by registerSubstitute on a non-string non-null argument. -/
def substituteTypeError : JSErr :=
  { message := "Substitute must be a string or null", code := none }

/-- Error thrown by registerAllowable when unhook is requested for a native
module. -/
def cannotUnhookNativeError : JSErr :=
  { message := "Cannot unhook native modules", code := none }

/-- The live options object.  Each slot is `none` when the key is absent
(the object starts as blank()) and `some b` when set. -/
structure Options where
  useCleanCache : Option Bool
  warnOnReplace : Option Bool
  warnOnUnregistered : Option Bool
deriving DecidableEq

/-- options = blank(): no keys present. -/
def blankOptions : Options :=
  { useCleanCache := none, warnOnReplace := none, warnOnUnregistered := none }

/-- Host-language truthiness of an option slot: an absent key reads as
undefined, which is falsy. -/
def truthy : Option Bool → Bool
  | some b => b
  | none => false

/-- The defaultOptions literal of the source. -/
structure DefaultOptions where
  useCleanCache : Bool
  warnOnReplace : Bool
  warnOnUnregistered : Bool
deriving DecidableEq

def defaultOptions : DefaultOptions :=
  { useCleanCache := false, warnOnReplace := true, warnOnUnregistered := true }

/-- Source getEffectiveOptions: copy every key of defaultOptions into a blank
object, then copy every key present on the supplied options over it. -/
def getEffectiveOptions (opts : Option Options) : Options :=
  let base : Options :=
    { useCleanCache := some defaultOptions.useCleanCache,
      warnOnReplace := some defaultOptions.warnOnReplace,
      warnOnUnregistered := some defaultOptions.warnOnUnregistered }
  match opts with
  | none => base
  | some o =>
      { useCleanCache := o.useCleanCache.orElse fun _ => base.useCleanCache,
        warnOnReplace := o.warnOnReplace.orElse fun _ => base.warnOnReplace,
        warnOnUnregistered := o.warnOnUnregistered.orElse fun _ => base.warnOnUnregistered }

/-- A registeredSubstitutes entry: the substitute name (null marker as
`none`), the parent module captured at registration, and the module slot the
hooked loader writes on load (absent at creation). -/
structure SubstEntry where
  name : Option String
  parent : Nat
  module : Option JSVal
deriving DecidableEq

/-- A registeredAllowables entry: the unhook flag and the observed call
paths. -/
structure AllowEntry where
  unhook : Bool
  paths : List Key
deriving DecidableEq

/-- The function stored in the host load slot: either the host original
loader or the hooked replacement installed by enable.  All hooked-loader
closures consult the same module-level state, so they are not distinguished
further. -/
inductive LoadFn where
  | original : LoadFn
  | hooked : LoadFn
deriving DecidableEq

/-- One invocation of the original host loader: its arguments. -/
structure LoadCall where
  request : String
  parent : Nat
  isMain : Bool
deriving DecidableEq

/-- The complete mutable state: the module-level registries and option
object of the library, the saved originals, and the host globals it can
read and overwrite (module cache, the load slot), plus the observation
logs (original-loader invocations, console warnings). -/
structure MState where
  registeredMocks : Dict JSVal
  registeredSubstitutes : Dict SubstEntry
  registeredAllowables : Dict AllowEntry
  originalLoader : Option LoadFn
  originalCache : Option (Dict JSVal)
  options : Options
  cache : Dict JSVal
  mLoad : LoadFn
  loadLog : List LoadCall
  warnings : List String
deriving DecidableEq

/-- The pure part of the host module system: the resolver
(Module resolveFilename) and the export value the original loader produces
when it evaluates a module body. -/
structure Host where
  resolve : String → Nat → Key
  loadVal : String → Nat → Bool → JSVal

/-- Regexp matching IDs of native modules: the ID ends in .node.  Stated on
the character list of the key. -/
def matchNativeModuleId (id : Key) : Bool := List.isSuffixOf ".node".data id.data

/-- The original host loader (the saved Module load function), an external
collaborator: every invocation is logged; a module already in the live cache
is returned without evaluating its body, otherwise the body is evaluated,
cached under the resolved key, and returned. -/
def origLoad (host : Host) (st : MState) (request : String) (parent : Nat)
    (isMain : Bool) : JSVal × MState :=
  let st1 := { st with loadLog :=
    st.loadLog ++ [{ request := request, parent := parent, isMain := isMain }] }
  let key := host.resolve request parent
  match Dict.find? st1.cache key with
  | some cached => (cached, st1)
  | none =>
      let v := host.loadVal request parent isMain
      (v, { st1 with cache := Dict.set st1.cache key v })

/-- The module-level state right after the library module is evaluated:
blank registries, no saved originals, blank options; the host cache holds
whatever it held, and the load slot holds the original loader. -/
def initialState (cache0 : Dict JSVal) : MState :=
  { registeredMocks := [], registeredSubstitutes := [], registeredAllowables := [],
    originalLoader := none, originalCache := none, options := blankOptions,
    cache := cache0, mLoad := LoadFn.original, loadLog := [], warnings := [] }

/-- Source copyNativeModules: for every own key of source matching the
native-module pattern, assign its value into destination; return
destination. -/
def copyNativeModules (destination source : Dict JSVal) : Dict JSVal :=
  source.foldl
    (fun dest kv => if matchNativeModuleId kv.1 then Dict.set dest kv.1 kv.2 else dest)
    destination

/-- Warning text for loading a non-allowed module. -/
def warnNonAllowed (request : String) : String :=
  "WARNING: loading non-allowed module: " ++ request

/-- Warning text for replacing an existing mock. -/
def warnReplacingMock (mod : String) : String :=
  "WARNING: Replacing existing mock for module: " ++ mod

/-- Warning text for replacing an existing substitute. -/
def warnReplacingSubstitute (mod : String) : String :=
  "WARNING: Replacing existing substitute for module: " ++ mod

/-- Source hookedLoader: the loader replacement installed while hooking is
enabled.  Throws if not hooked; returns a registered mock verbatim; for a
substitute entry throws not-found on a null name, otherwise invokes the
original loader on the substitute name and parent, stores the result in the
entry module slot and returns it; for an allowable entry with unhook set
records the path when it contains a slash and is new; otherwise warns when
warnOnUnregistered is in force; finally delegates to the original loader.
The first argument after the host is the parent module of the facade
instance whose closure this is; the body never reads it. -/
def hookedLoader (host : Host) (_instanceParent : Nat) (st : MState)
    (request : String) (parent : Nat) (isMain : Bool) :
    MState × Except JSErr JSVal :=
  match st.originalLoader with
  | none => (st, Except.error loaderNotHookedError)
  | some _ =>
      let path := host.resolve request parent
      match Dict.find? st.registeredMocks path with
      | some mockVal => (st, Except.ok mockVal)
      | none =>
          match Dict.find? st.registeredSubstitutes path with
          | some subst =>
              match subst.name with
              | none => (st, Except.error (createModuleNotFoundError request))
              | some substName =>
                  let r := origLoad host st substName subst.parent isMain
                  let newEntry : SubstEntry := { subst with module := some r.1 }
                  let newSubstitutes := Dict.set r.2.registeredSubstitutes path newEntry
                  ({ r.2 with registeredSubstitutes := newSubstitutes },
                   Except.ok r.1)
          | none =>
              let st1 :=
                match Dict.find? st.registeredAllowables path with
                | some allow =>
                    if allow.unhook then
                      if path.data.contains (Char.ofNat 47) && !(allow.paths.contains path) then
                        let newAllow : AllowEntry := { allow with paths := allow.paths ++ [path] }
                        { st with registeredAllowables := Dict.set st.registeredAllowables path newAllow }
                      else st
                    else st
                | none =>
                    if truthy st.options.warnOnUnregistered then
                      { st with warnings := st.warnings ++ [warnNonAllowed request] }
                    else st
              let r := origLoad host st1 request parent isMain
              (r.2, Except.ok r.1)

/-- Source enable: no-op if already hooked; compute the effective options;
with useCleanCache save the live cache and install a fresh one holding only
its native-module entries; save the current load slot and install the hooked
loader. -/
def enable (_instanceParent : Nat) (st : MState) (opts : Option Options) : MState :=
  match st.originalLoader with
  | some _ => st
  | none =>
      let newOptions := getEffectiveOptions opts
      let st1 := { st with options := newOptions }
      let st2 :=
        if truthy newOptions.useCleanCache then
          { st1 with originalCache := some st1.cache,
                     cache := copyNativeModules [] st1.cache }
        else st1
      { st2 with originalLoader := some st2.mLoad, mLoad := LoadFn.hooked }

/-- Source disable: no-op if not hooked; with useCleanCache copy the native
entries of the live cache back into the saved original cache, reinstall it
and clear the save slot; restore the saved load function.  With useCleanCache
in force the original-cache save slot was always filled by enable, so the
empty default is unreachable. -/
def disable (_instanceParent : Nat) (st : MState) : MState :=
  match st.originalLoader with
  | none => st
  | some savedLoader =>
      let st1 :=
        if truthy st.options.useCleanCache then
          { st with cache := copyNativeModules (st.originalCache.getD []) st.cache,
                    originalCache := none }
        else st
      { st1 with mLoad := savedLoader, originalLoader := none }

/-- Source registerMock: resolve the module against the instance parent,
warn when warnOnReplace is in force and an entry exists, then overwrite. -/
def registerMock (host : Host) (parentModule : Nat) (st : MState) (mod : String)
    (mock : JSVal) : MState :=
  let path := host.resolve mod parentModule
  let st1 :=
    if truthy st.options.warnOnReplace && (Dict.find? st.registeredMocks path).isSome then
      { st with warnings := st.warnings ++ [warnReplacingMock mod] }
    else st
  { st1 with registeredMocks := Dict.set st1.registeredMocks path mock }

/-- Source registerSubstitute: throw on a non-string non-null substitute
before anything else; otherwise resolve, warn on replacement when in force,
and store the entry with the instance parent and no module slot. -/
def registerSubstitute (host : Host) (parentModule : Nat) (st : MState)
    (mod : String) (subst : JSVal) : MState × Except JSErr Unit :=
  if !subst.isString && !(subst == JSVal.vnull) then
    (st, Except.error substituteTypeError)
  else
    let path := host.resolve mod parentModule
    let st1 :=
      if truthy st.options.warnOnReplace &&
          (Dict.find? st.registeredSubstitutes path).isSome then
        { st with warnings := st.warnings ++ [warnReplacingSubstitute mod] }
      else st
    let newEntry : SubstEntry :=
      { name := subst.asSubstituteName, parent := parentModule, module := none }
    ({ st1 with registeredSubstitutes := Dict.set st1.registeredSubstitutes path newEntry },
     Except.ok ())

/-- Source registerAllowable: resolve, throw when unhook is requested for a
native-module path, otherwise create or overwrite the entry with an empty
observed-paths list. -/
def registerAllowable (host : Host) (parentModule : Nat) (st : MState)
    (mod : String) (unhook : Bool) : MState × Except JSErr Unit :=
  let path := host.resolve mod parentModule
  if matchNativeModuleId path && unhook then
    (st, Except.error cannotUnhookNativeError)
  else
    let newEntry : AllowEntry := { unhook := unhook, paths := [] }
    ({ st with registeredAllowables := Dict.set st.registeredAllowables path newEntry },
     Except.ok ())

/-- Delete every listed key from a cache, in order. -/
def evictPaths (cache : Dict JSVal) (paths : List Key) : Dict JSVal :=
  paths.foldl Dict.del cache

/-- Source deregisterAllowable: if an entry exists at the resolved path,
first (when its unhook flag is set) delete every observed path from the live
module cache, then remove the entry; otherwise do nothing. -/
def deregisterAllowable (host : Host) (parentModule : Nat) (st : MState)
    (mod : String) : MState :=
  let path := host.resolve mod parentModule
  match Dict.find? st.registeredAllowables path with
  | none => st
  | some allow =>
      let st1 :=
        if allow.unhook then { st with cache := evictPaths st.cache allow.paths }
        else st
      { st1 with registeredAllowables := Dict.del st1.registeredAllowables path }

/-- Source deregisterAll: for every allowable entry with unhook set delete
its observed paths from the live cache, then reset all three registries to
blank objects.  The enabled state is untouched. -/
def deregisterAll (_instanceParent : Nat) (st : MState) : MState :=
  let cache2 := st.registeredAllowables.foldl
    (fun c kv => if kv.2.unhook then evictPaths c kv.2.paths else c) st.cache
  { st with cache := cache2, registeredMocks := [], registeredSubstitutes := [],
            registeredAllowables := [] }

/-- Run a list of load requests through the hooked loader, threading the
state; a throw leaves the state of the failed call in place (every throwing
path of hookedLoader throws before mutating). -/
def runLoads (host : Host) (instanceParent : Nat) (st : MState) :
    List LoadCall → MState
  | [] => st
  | l :: rest =>
      runLoads host instanceParent
        (hookedLoader host instanceParent st l.request l.parent l.isMain).1 rest

/-- Equality of thrown-or-returned results is decidable, so concrete runs can
be checked by evaluation. -/
instance {ε α : Type} [DecidableEq ε] [DecidableEq α] : DecidableEq (Except ε α) := fun x y =>
  match x, y with
  | Except.ok a, Except.ok b =>
      if h : a = b then isTrue (by subst h; rfl) else isFalse (fun hc => h (Except.ok.inj hc))
  | Except.error a, Except.error b =>
      if h : a = b then isTrue (by subst h; rfl) else isFalse (fun hc => h (Except.error.inj hc))
  | Except.ok _, Except.error _ => isFalse (fun hc => Except.noConfusion hc)
  | Except.error _, Except.ok _ => isFalse (fun hc => Except.noConfusion hc)

/-- A concrete host for checking theorems on explicit inputs: the resolver is
the identity on the request and the loader builds a tagged export value. -/
def demoHost : Host :=
  { resolve := fun request _parent => request,
    loadVal := fun request _parent _isMain => JSVal.vstr ("module:" ++ request) }

/-- A concrete starting state whose host cache holds one plain and one
native-module entry. -/
def demoSt0 : MState :=
  initialState [("old", JSVal.vnum 1), ("lib.node", JSVal.vnum 2)]

/-- The concrete state after enabling with default options. -/
def demoEnabled : MState := enable 0 demoSt0 none

/-- Options selecting the clean-cache mode. -/
def demoCleanOpts : Options := { blankOptions with useCleanCache := some true }

/-- Two concrete loads, one plain and one native. -/
def demoLoads : List LoadCall :=
  [{ request := "m1", parent := 0, isMain := false },
   { request := "n.node", parent := 0, isMain := false }]

/-! ### Dictionary lemmas -/

theorem Dict.find?_set {α : Type} (d : Dict α) (k : Key) (v : α) (k2 : Key) :
    Dict.find? (Dict.set d k v) k2 = if k2 = k then some v else Dict.find? d k2 := by
  induction d with
  | nil =>
      by_cases h : k2 = k
      · subst h; simp [Dict.set, Dict.find?]
      · simp [Dict.set, Dict.find?, h, Ne.symm h]
  | cons p rest ih =>
      obtain ⟨k3, v3⟩ := p
      by_cases h3 : k3 = k
      · subst h3
        by_cases h : k2 = k3
        · subst h; simp [Dict.set, Dict.find?]
        · simp [Dict.set, Dict.find?, h, Ne.symm h]
      · by_cases hq : k3 = k2
        · subst hq
          simp [Dict.set, Dict.find?, h3, Ne.symm h3]
        · simp [Dict.set, Dict.find?, h3, hq, ih]

theorem Dict.find?_del_ne {α : Type} (d : Dict α) (k k2 : Key) (h : k2 ≠ k) :
    Dict.find? (Dict.del d k) k2 = Dict.find? d k2 := by
  induction d with
  | nil => simp [Dict.del]
  | cons p rest ih =>
      obtain ⟨k3, v3⟩ := p
      by_cases h3 : k3 = k
      · subst h3
        simp [Dict.del, Dict.find?, Ne.symm h]
      · by_cases hq : k3 = k2 <;> simp [Dict.del, Dict.find?, h3, hq, ih, h]

theorem Dict.find?_eq_none_of_not_mem {α : Type} (d : Dict α) (k : Key)
    (h : k ∉ d.map Prod.fst) : Dict.find? d k = none := by
  induction d with
  | nil => simp [Dict.find?]
  | cons p rest ih =>
      obtain ⟨k3, v3⟩ := p
      simp only [List.map_cons, List.mem_cons] at h
      push_neg at h
      simp [Dict.find?, Ne.symm h.1, ih h.2]

theorem Dict.find?_del_self {α : Type} (d : Dict α) (k : Key) (h : DictNodup d) :
    Dict.find? (Dict.del d k) k = none := by
  induction d with
  | nil => simp [Dict.del, Dict.find?]
  | cons p rest ih =>
      obtain ⟨k3, v3⟩ := p
      simp only [DictNodup, List.map_cons, List.nodup_cons] at h
      by_cases h3 : k3 = k
      · subst h3
        simpa [Dict.del] using Dict.find?_eq_none_of_not_mem rest k3 h.1
      · simp [Dict.del, Dict.find?, h3, ih h.2]

theorem Dict.del_keys_sublist {α : Type} (d : Dict α) (k : Key) :
    List.Sublist ((Dict.del d k).map Prod.fst) (d.map Prod.fst) := by
  induction d with
  | nil => simp [Dict.del]
  | cons p rest ih =>
      obtain ⟨k3, v3⟩ := p
      by_cases h3 : k3 = k
      · simp only [Dict.del, h3, if_true, List.map_cons]
        exact List.Sublist.cons _ (List.Sublist.refl _)
      · simp only [Dict.del, h3, if_false, List.map_cons]
        exact List.Sublist.cons₂ _ ih

theorem DictNodup.del {α : Type} {d : Dict α} (h : DictNodup d) (k : Key) :
    DictNodup (Dict.del d k) :=
  List.Nodup.sublist (Dict.del_keys_sublist d k) h

theorem Dict.mem_keys_set {α : Type} (d : Dict α) (k : Key) (v : α) (a : Key) :
    a ∈ (Dict.set d k v).map Prod.fst ↔ a = k ∨ a ∈ d.map Prod.fst := by
  induction d with
  | nil => simp [Dict.set]
  | cons p rest ih =>
      obtain ⟨k3, v3⟩ := p
      by_cases h3 : k3 = k
      · subst h3
        simp only [Dict.set, if_true, List.map_cons, List.mem_cons]
        constructor
        · intro hc
          rcases hc with hc | hc
          · exact Or.inl hc
          · exact Or.inr (Or.inr hc)
        · intro hc
          rcases hc with hc | hc | hc
          · exact Or.inl hc
          · exact Or.inl hc
          · exact Or.inr hc
      · simp only [Dict.set, h3, if_false, List.map_cons, List.mem_cons, ih]
        tauto

theorem DictNodup.set {α : Type} {d : Dict α} (h : DictNodup d) (k : Key) (v : α) :
    DictNodup (Dict.set d k v) := by
  induction d with
  | nil => simp [DictNodup, Dict.set]
  | cons p rest ih =>
      obtain ⟨k3, v3⟩ := p
      simp only [DictNodup, List.map_cons, List.nodup_cons] at h
      by_cases h3 : k3 = k
      · subst h3
        simpa [DictNodup, Dict.set] using h
      · have hrest : DictNodup (Dict.set rest k v) := ih h.2
        simp only [DictNodup, Dict.set, h3, if_false, List.map_cons, List.nodup_cons]
        refine ⟨?_, hrest⟩
        rw [Dict.mem_keys_set]
        push_neg
        exact ⟨h3, h.1⟩

theorem Dict.find?_evictPaths (c : Dict JSVal) (paths : List Key) (k : Key)
    (h : DictNodup c) :
    Dict.find? (evictPaths c paths) k =
      if k ∈ paths then none else Dict.find? c k := by
  induction paths generalizing c with
  | nil => simp [evictPaths]
  | cons p rest ih =>
      have hstep : evictPaths c (p :: rest) = evictPaths (Dict.del c p) rest := by
        simp [evictPaths]
      rw [hstep, ih (Dict.del c p) (h.del p)]
      by_cases hk : k = p
      · subst hk
        by_cases hr : k ∈ rest <;> simp [hr, Dict.find?_del_self c k h]
      · by_cases hr : k ∈ rest <;> simp [hr, hk, Dict.find?_del_ne c p k hk]

theorem Dict.find?_copyNativeModules (dest src : Dict JSVal) (h : DictNodup src) (k : Key) :
    Dict.find? (copyNativeModules dest src) k =
      if matchNativeModuleId k && (Dict.find? src k).isSome then Dict.find? src k
      else Dict.find? dest k := by
  induction src generalizing dest with
  | nil => simp [copyNativeModules, Dict.find?]
  | cons p rest ih =>
      obtain ⟨k1, v1⟩ := p
      simp only [DictNodup, List.map_cons, List.nodup_cons] at h
      have hstep : copyNativeModules dest ((k1, v1) :: rest) =
          copyNativeModules (if matchNativeModuleId k1 then Dict.set dest k1 v1 else dest) rest := by
        simp [copyNativeModules]
      rw [hstep, ih _ h.2]
      by_cases hk : k = k1
      · subst hk
        have hnone : Dict.find? rest k = none := Dict.find?_eq_none_of_not_mem rest k h.1
        have hcons : Dict.find? ((k, v1) :: rest) k = some v1 := by simp [Dict.find?]
        rw [hcons, hnone]
        by_cases hn : matchNativeModuleId k
        · simp only [hn, Bool.true_and, Option.isSome_none, if_false, Option.isSome_some, if_true]
          simp [Dict.find?_set]
        · simp [hn]
      · have hk1 : k1 ≠ k := fun hc => hk hc.symm
        have hfind : Dict.find? ((k1, v1) :: rest) k = Dict.find? rest k := by
          simp [Dict.find?, hk1]
        rw [hfind]
        by_cases hn : matchNativeModuleId k1
        · simp only [hn, if_true]
          rw [Dict.find?_set]
          simp [hk]
        · simp [hn]

theorem DictNodup.copyNativeModules {dest : Dict JSVal} (h : DictNodup dest)
    (src : Dict JSVal) : DictNodup (Mockery.copyNativeModules dest src) := by
  induction src generalizing dest with
  | nil => exact h
  | cons p rest ih =>
      have hstep : Mockery.copyNativeModules dest (p :: rest) =
          Mockery.copyNativeModules
            (if matchNativeModuleId p.1 then Dict.set dest p.1 p.2 else dest) rest := by
        simp [Mockery.copyNativeModules]
      rw [hstep]
      by_cases hn : matchNativeModuleId p.1
      · simpa [hn] using ih (h.set p.1 p.2)
      · simpa [hn] using ih h

/-! ### State invariants of the loaders -/

theorem origLoad_fields (host : Host) (st : MState) (request : String) (parent : Nat)
    (isMain : Bool) :
    (origLoad host st request parent isMain).2.registeredMocks = st.registeredMocks ∧
    (origLoad host st request parent isMain).2.registeredSubstitutes = st.registeredSubstitutes ∧
    (origLoad host st request parent isMain).2.registeredAllowables = st.registeredAllowables ∧
    (origLoad host st request parent isMain).2.originalLoader = st.originalLoader ∧
    (origLoad host st request parent isMain).2.originalCache = st.originalCache ∧
    (origLoad host st request parent isMain).2.options = st.options ∧
    (origLoad host st request parent isMain).2.mLoad = st.mLoad ∧
    (origLoad host st request parent isMain).2.loadLog =
      st.loadLog ++ [{ request := request, parent := parent, isMain := isMain }] ∧
    (origLoad host st request parent isMain).2.warnings = st.warnings := by
  unfold origLoad
  dsimp only
  split <;> simp

theorem origLoad_cache_nodup (host : Host) (st : MState) (request : String) (parent : Nat)
    (isMain : Bool) (h : DictNodup st.cache) :
    DictNodup (origLoad host st request parent isMain).2.cache := by
  unfold origLoad
  dsimp only
  split
  · simpa using h
  · simpa using h.set _ _

theorem hookedLoader_fields (host : Host) (ip : Nat) (st : MState) (request : String)
    (parent : Nat) (isMain : Bool) :
    (hookedLoader host ip st request parent isMain).1.originalLoader = st.originalLoader ∧
    (hookedLoader host ip st request parent isMain).1.originalCache = st.originalCache ∧
    (hookedLoader host ip st request parent isMain).1.options = st.options ∧
    (hookedLoader host ip st request parent isMain).1.mLoad = st.mLoad := by
  unfold hookedLoader
  dsimp only
  repeat' split
  all_goals simp [origLoad_fields]

theorem hookedLoader_cache_nodup (host : Host) (ip : Nat) (st : MState) (request : String)
    (parent : Nat) (isMain : Bool) (h : DictNodup st.cache) :
    DictNodup (hookedLoader host ip st request parent isMain).1.cache := by
  unfold hookedLoader
  dsimp only
  repeat' split
  all_goals simp only []
  · exact h
  · exact h
  · exact h
  · simpa using origLoad_cache_nodup host st _ _ isMain h
  · simpa using origLoad_cache_nodup host _ request parent isMain (by simpa using h)
  · simpa using origLoad_cache_nodup host _ request parent isMain (by simpa using h)
  · simpa using origLoad_cache_nodup host _ request parent isMain (by simpa using h)
  · simpa using origLoad_cache_nodup host _ request parent isMain (by simpa using h)
  · simpa using origLoad_cache_nodup host _ request parent isMain (by simpa using h)

theorem runLoads_fields (host : Host) (ip : Nat) (loads : List LoadCall) (st : MState) :
    (runLoads host ip st loads).originalLoader = st.originalLoader ∧
    (runLoads host ip st loads).originalCache = st.originalCache ∧
    (runLoads host ip st loads).options = st.options ∧
    (runLoads host ip st loads).mLoad = st.mLoad ∧
    (DictNodup st.cache → DictNodup (runLoads host ip st loads).cache) := by
  induction loads generalizing st with
  | nil => simp [runLoads]
  | cons l rest ih =>
      have hf := hookedLoader_fields host ip st l.request l.parent l.isMain
      have hrec := ih (hookedLoader host ip st l.request l.parent l.isMain).1
      simp only [runLoads]
      refine ⟨hrec.1.trans hf.1, hrec.2.1.trans hf.2.1, hrec.2.2.1.trans hf.2.2.1,
        hrec.2.2.2.1.trans hf.2.2.2, fun hc => hrec.2.2.2.2 ?_⟩
      exact hookedLoader_cache_nodup host ip st l.request l.parent l.isMain hc

/-! ### The claims -/

/-- C1: while hooked, a module whose resolved key has a registered mock value
V loads to exactly V and the whole state, the original-loader invocation log
included, is unchanged: the original loader is never invoked and the original
module body is never evaluated. -/
theorem claim_C1_mock_short_circuit (host : Host) (ip : Nat) (st : MState)
    (request : String) (parent : Nat) (isMain : Bool) (lf : LoadFn) (v : JSVal)
    (h1 : st.originalLoader = some lf)
    (h2 : Dict.find? st.registeredMocks (host.resolve request parent) = some v) :
    hookedLoader host ip st request parent isMain = (st, Except.ok v) := by
  simp [hookedLoader, h1, h2]

/-- C2 (amended): while hooked, a module registered with a non-null
substitute target loads by invoking the original loader on the target name
and the parent captured at registration; the result is returned and stored
in the entry module slot, but the invocation log grows on every load, the
stored slot never being consulted, so a repeated load invokes the original
loader again. -/
theorem claim_C2_substitute_load (host : Host) (ip : Nat) (st : MState)
    (request : String) (parent : Nat) (isMain : Bool) (lf : LoadFn)
    (subst : SubstEntry) (nm : String)
    (h1 : st.originalLoader = some lf)
    (h2 : Dict.find? st.registeredMocks (host.resolve request parent) = none)
    (h3 : Dict.find? st.registeredSubstitutes (host.resolve request parent) = some subst)
    (h4 : subst.name = some nm) :
    (hookedLoader host ip st request parent isMain).2 =
        Except.ok (origLoad host st nm subst.parent isMain).1 ∧
    (hookedLoader host ip st request parent isMain).1.loadLog =
        st.loadLog ++ [{ request := nm, parent := subst.parent, isMain := isMain }] ∧
    Dict.find? (hookedLoader host ip st request parent isMain).1.registeredSubstitutes
        (host.resolve request parent) =
      some ⟨some nm, subst.parent, some (origLoad host st nm subst.parent isMain).1⟩ ∧
    (hookedLoader host ip st request parent isMain).1.cache =
        (origLoad host st nm subst.parent isMain).2.cache := by
  have hmain : hookedLoader host ip st request parent isMain = ({ (origLoad host st nm subst.parent isMain).2 with registeredSubstitutes := Dict.set (origLoad host st nm subst.parent isMain).2.registeredSubstitutes (host.resolve request parent) ⟨some nm, subst.parent, some (origLoad host st nm subst.parent isMain).1⟩ }, Except.ok (origLoad host st nm subst.parent isMain).1) := by
    simp [hookedLoader, h1, h2, h3, h4]
  refine ⟨by rw [hmain], ?_, ?_, by rw [hmain]⟩
  · rw [hmain]
    simpa using (origLoad_fields host st nm subst.parent isMain).2.2.2.2.2.2.2.1
  · rw [hmain]
    simp [Dict.find?_set]

/-- C3: while hooked, a module registered with a null substitute target loads
to a thrown module-not-found error whose message quotes the original request
string, with code MODULE_NOT_FOUND, and the state, registries included, is
unchanged by the failed load. -/
theorem claim_C3_null_substitute (host : Host) (ip : Nat) (st : MState)
    (request : String) (parent : Nat) (isMain : Bool) (lf : LoadFn) (subst : SubstEntry)
    (h1 : st.originalLoader = some lf)
    (h2 : Dict.find? st.registeredMocks (host.resolve request parent) = none)
    (h3 : Dict.find? st.registeredSubstitutes (host.resolve request parent) = some subst)
    (h4 : subst.name = none) :
    hookedLoader host ip st request parent isMain =
      (st, Except.error (createModuleNotFoundError request)) ∧
    (createModuleNotFoundError request).message =
      "Cannot find module " ++ squote ++ request ++ squote ∧
    (createModuleNotFoundError request).code = some "MODULE_NOT_FOUND" := by
  refine ⟨?_, rfl, rfl⟩
  simp [hookedLoader, h1, h2, h3, h4]

/-- C4: enabling twice leaves exactly the state of enabling once, whatever
the two option objects: the second call is a no-op, so the effective options
of the first call, the saved loader and the saved cache all stay in force. -/
theorem claim_C4_enable_idempotent (ipA ipB : Nat) (st : MState)
    (opts1 opts2 : Option Options) :
    enable ipB (enable ipA st opts1) opts2 = enable ipA st opts1 := by
  cases h : st.originalLoader with
  | some lf => simp [enable, h]
  | none => simp [enable, h]

/-- C5: registerSubstitute with a substitute that is neither a string nor
null fails with the usage error whatever the host resolver (so before any
resolution), leaving the whole state unchanged; with a string or null
substitute no error is raised, the entry is stored at the resolved key, and
the other registries are untouched. -/
theorem claim_C5_substitute_type_guard (host : Host) (p : Nat) (st : MState)
    (mod : String) (subst : JSVal) :
    ((subst.isString || subst == JSVal.vnull) = false →
        ∀ host2 : Host, registerSubstitute host2 p st mod subst =
          (st, Except.error substituteTypeError)) ∧
    ((subst.isString || subst == JSVal.vnull) = true →
        (registerSubstitute host p st mod subst).2 = Except.ok () ∧
        Dict.find? (registerSubstitute host p st mod subst).1.registeredSubstitutes
            (host.resolve mod p) = some ⟨subst.asSubstituteName, p, none⟩ ∧
        (registerSubstitute host p st mod subst).1.registeredMocks = st.registeredMocks ∧
        (registerSubstitute host p st mod subst).1.registeredAllowables =
          st.registeredAllowables) := by
  constructor
  · intro hcond host2
    have hc : subst.isString = false ∧ (subst == JSVal.vnull) = false := by
      simpa using hcond
    simp [registerSubstitute, hc.1, hc.2]
  · intro hcond
    have hguard : (!subst.isString && !(subst == JSVal.vnull)) = false := by
      rw [← Bool.not_or, hcond]
      rfl
    unfold registerSubstitute
    rw [hguard]
    refine ⟨by simp, by simp [Dict.find?_set], ?_, ?_⟩ <;>
      · simp only [Bool.false_eq_true, if_false]
        split <;> simp

/-- C6: registerAllowable with unhook requested on a module resolving to a
native-module key fails with the usage error and the state is unchanged;
otherwise no error is raised and the entry is created or overwritten with an
empty observed-paths list. -/
theorem claim_C6_native_unhook_guard (host : Host) (p : Nat) (st : MState)
    (mod : String) (unhook : Bool) :
    ((matchNativeModuleId (host.resolve mod p) && unhook) = true →
        registerAllowable host p st mod unhook =
          (st, Except.error cannotUnhookNativeError)) ∧
    ((matchNativeModuleId (host.resolve mod p) && unhook) = false →
        registerAllowable host p st mod unhook =
          ({ st with registeredAllowables :=
              Dict.set st.registeredAllowables (host.resolve mod p) ⟨unhook, []⟩ },
           Except.ok ())) := by
  constructor <;> intro h <;> simp [registerAllowable, h]

/-- C7: deregisterAllowable on a key held with unhook set deletes every
observed path from the live module cache and removes the entry; with unhook
unset it removes the entry and leaves the whole state otherwise unchanged,
the cache included; on an unregistered key it changes nothing. -/
theorem claim_C7_deregister_allowable (host : Host) (p : Nat) (st : MState) (mod : String)
    (hcache : DictNodup st.cache) (hallow : DictNodup st.registeredAllowables) :
    (∀ allow : AllowEntry,
        Dict.find? st.registeredAllowables (host.resolve mod p) = some allow →
        allow.unhook = true →
        (∀ k : Key, Dict.find? (deregisterAllowable host p st mod).cache k =
            if k ∈ allow.paths then none else Dict.find? st.cache k) ∧
        Dict.find? (deregisterAllowable host p st mod).registeredAllowables
          (host.resolve mod p) = none) ∧
    (∀ allow : AllowEntry,
        Dict.find? st.registeredAllowables (host.resolve mod p) = some allow →
        allow.unhook = false →
        deregisterAllowable host p st mod =
          { st with registeredAllowables :=
              Dict.del st.registeredAllowables (host.resolve mod p) }) ∧
    (Dict.find? st.registeredAllowables (host.resolve mod p) = none →
        deregisterAllowable host p st mod = st) := by
  refine ⟨?_, ?_, ?_⟩
  · intro allow hfind hunhook
    constructor
    · intro k
      have : (deregisterAllowable host p st mod).cache = evictPaths st.cache allow.paths := by
        simp [deregisterAllowable, hfind, hunhook]
      rw [this, Dict.find?_evictPaths st.cache allow.paths k hcache]
    · have : (deregisterAllowable host p st mod).registeredAllowables =
          Dict.del st.registeredAllowables (host.resolve mod p) := by
        simp [deregisterAllowable, hfind, hunhook]
      rw [this]
      exact Dict.find?_del_self _ _ hallow
  · intro allow hfind hunhook
    simp [deregisterAllowable, hfind, hunhook]
  · intro hnone
    simp [deregisterAllowable, hnone]

/-- C8: with useCleanCache in force, the round trip of enable, an arbitrary
sequence of hooked loads, and disable yields a module cache that agrees with
the pre-enable cache at every key, except native-module keys present in the
live cache at disable time, which are carried over; the original load
function is restored and the hook is released. -/
theorem claim_C8_clean_cache_roundtrip (host : Host) (ipE ipL ipD : Nat) (st0 : MState)
    (opts : Option Options) (loads : List LoadCall)
    (h0 : st0.originalLoader = none)
    (hclean : (getEffectiveOptions opts).useCleanCache = some true) :
    (∀ k : Key,
        Dict.find? (disable ipD (runLoads host ipL (enable ipE st0 opts) loads)).cache k =
          if (matchNativeModuleId k &&
              (Dict.find? (runLoads host ipL (enable ipE st0 opts) loads).cache k).isSome) then
            Dict.find? (runLoads host ipL (enable ipE st0 opts) loads).cache k
          else Dict.find? st0.cache k) ∧
    (disable ipD (runLoads host ipL (enable ipE st0 opts) loads)).mLoad = st0.mLoad ∧
    (disable ipD (runLoads host ipL (enable ipE st0 opts) loads)).originalLoader = none := by
  have henable : enable ipE st0 opts = { st0 with options := getEffectiveOptions opts, originalCache := some st0.cache, cache := copyNativeModules [] st0.cache, originalLoader := some st0.mLoad, mLoad := LoadFn.hooked } := by
    simp [enable, h0, hclean, truthy]
  have hrf := runLoads_fields host ipL loads (enable ipE st0 opts)
  have h2ol : (runLoads host ipL (enable ipE st0 opts) loads).originalLoader =
      some st0.mLoad := by
    rw [hrf.1, henable]
  have h2oc : (runLoads host ipL (enable ipE st0 opts) loads).originalCache =
      some st0.cache := by
    rw [hrf.2.1, henable]
  have h2opt : (runLoads host ipL (enable ipE st0 opts) loads).options =
      getEffectiveOptions opts := by
    rw [hrf.2.2.1, henable]
  have h2nodup : DictNodup (runLoads host ipL (enable ipE st0 opts) loads).cache := by
    apply hrf.2.2.2.2
    rw [henable]
    exact DictNodup.copyNativeModules (by simp [DictNodup]) st0.cache
  have hdisable : disable ipD (runLoads host ipL (enable ipE st0 opts) loads) = { (runLoads host ipL (enable ipE st0 opts) loads) with cache := copyNativeModules st0.cache (runLoads host ipL (enable ipE st0 opts) loads).cache, originalCache := none, mLoad := st0.mLoad, originalLoader := none } := by
    simp [disable, h2ol, h2opt, h2oc, hclean, truthy]
  refine ⟨?_, by rw [hdisable], by rw [hdisable]⟩
  intro k
  rw [hdisable]
  exact Dict.find?_copyNativeModules st0.cache _ h2nodup k

/-- C9: facade instances differ only in their captured parent module and act
on the one module-level registry state, so a mock registered through
instance A is returned by a hooked load performed through any instance B for
every request resolving to the registered key, and deregisterAll performed
through any instance B clears all three registries. -/
theorem claim_C9_shared_registries (host : Host) (pA pB : Nat) (st : MState)
    (mod : String) (v : JSVal) (lf : LoadFn)
    (h1 : st.originalLoader = some lf) :
    (∀ (request : String) (parent : Nat) (isMain : Bool),
        host.resolve request parent = host.resolve mod pA →
        hookedLoader host pB (registerMock host pA st mod v) request parent isMain =
          (registerMock host pA st mod v, Except.ok v)) ∧
    (deregisterAll pB (registerMock host pA st mod v)).registeredMocks = [] ∧
    (deregisterAll pB (registerMock host pA st mod v)).registeredSubstitutes = [] ∧
    (deregisterAll pB (registerMock host pA st mod v)).registeredAllowables = [] := by
  refine ⟨?_, by simp [deregisterAll], by simp [deregisterAll], by simp [deregisterAll]⟩
  intro request parent isMain hres
  have hol : (registerMock host pA st mod v).originalLoader = some lf := by
    unfold registerMock
    dsimp only
    split <;> simpa using h1
  have hmock : Dict.find? (registerMock host pA st mod v).registeredMocks
      (host.resolve request parent) = some v := by
    unfold registerMock
    dsimp only
    rw [hres]
    split <;> simp [Dict.find?_set]
  simp [hookedLoader, hol, hmock]

/-- C10: before the first enable the live options object is blank, so with
the warnOnReplace slot absent registerMock and registerSubstitute emit no
replacement warning even over an existing registration, although the
documented default of the flag is true; the default only materialises when
enable computes the effective options. -/
theorem claim_C10_defaults_inert_before_enable (host : Host) (p : Nat) (st : MState)
    (mod : String) (v : JSVal) (s : String) (cache0 : Dict JSVal)
    (h : st.options.warnOnReplace = none) :
    (initialState cache0).options.warnOnReplace = none ∧
    (registerMock host p st mod v).warnings = st.warnings ∧
    ((registerSubstitute host p st mod (JSVal.vstr s)).1).warnings = st.warnings ∧
    (getEffectiveOptions none).warnOnReplace = some true ∧
    defaultOptions.warnOnReplace = true := by
  refine ⟨rfl, ?_, ?_, rfl, rfl⟩
  · unfold registerMock
    dsimp only
    rw [h]
    simp [truthy]
  · unfold registerSubstitute
    simp [JSVal.isString, truthy, h]

/-! ### Counterexample and witnesses -/

/-- C2 counterexample: with a substitute "a" mapped to "b" registered and
hooking enabled, the first load of "a" invokes the original loader once and
stores the loaded module on the entry, yet a second load of "a" invokes the
original loader again (the invocation log grows to two entries), refuting
that the cached result prevents re-invocation. -/
theorem claim_C2_counterexample :
    Dict.find? (hookedLoader demoHost 0 (registerSubstitute demoHost 0 demoEnabled "a" (JSVal.vstr "b")).1 "a" 7 false).1.registeredSubstitutes "a" = some ⟨some "b", 0, some (JSVal.vstr "module:b")⟩ ∧
    (hookedLoader demoHost 0 (registerSubstitute demoHost 0 demoEnabled "a" (JSVal.vstr "b")).1 "a" 7 false).1.loadLog = [{ request := "b", parent := 0, isMain := false }] ∧
    (hookedLoader demoHost 0 (hookedLoader demoHost 0 (registerSubstitute demoHost 0 demoEnabled "a" (JSVal.vstr "b")).1 "a" 7 false).1 "a" 7 false).1.loadLog = [{ request := "b", parent := 0, isMain := false }, { request := "b", parent := 0, isMain := false }] := by
  decide

/-- C1 witness: a concrete hooked state with a mock registered for "w"
returns the mock verbatim and leaves the state unchanged. -/
theorem claim_C1_witness :
    hookedLoader demoHost 0 (registerMock demoHost 0 demoEnabled "w" (JSVal.vobj 9)) "w" 3 true =
      (registerMock demoHost 0 demoEnabled "w" (JSVal.vobj 9), Except.ok (JSVal.vobj 9)) :=
  claim_C1_mock_short_circuit demoHost 0 _ "w" 3 true LoadFn.original (JSVal.vobj 9)
    (by decide) (by decide)

/-- C2 witness for the amended claim, at the concrete substitute state. -/
theorem claim_C2_witness :
    (hookedLoader demoHost 0 (registerSubstitute demoHost 0 demoEnabled "a" (JSVal.vstr "b")).1 "a" 7 false).2 = Except.ok (JSVal.vstr "module:b") ∧
    (hookedLoader demoHost 0 (registerSubstitute demoHost 0 demoEnabled "a" (JSVal.vstr "b")).1 "a" 7 false).1.loadLog = [{ request := "b", parent := 0, isMain := false }] := by
  have h := claim_C2_substitute_load demoHost 0
    (registerSubstitute demoHost 0 demoEnabled "a" (JSVal.vstr "b")).1 "a" 7 false
    LoadFn.original ⟨some "b", 0, none⟩ "b" (by decide) (by decide) (by decide) rfl
  refine ⟨?_, ?_⟩
  · rw [h.1]; decide
  · rw [h.2.1]; decide

/-- C3 witness: a concrete null substitute for "x" makes the hooked load of
"x" throw the not-found error quoting "x" and leaves the state unchanged. -/
theorem claim_C3_witness :
    hookedLoader demoHost 0 (registerSubstitute demoHost 0 demoEnabled "x" JSVal.vnull).1 "x" 3 true =
      ((registerSubstitute demoHost 0 demoEnabled "x" JSVal.vnull).1,
       Except.error (createModuleNotFoundError "x")) ∧
    (createModuleNotFoundError "x").message = "Cannot find module " ++ squote ++ "x" ++ squote := by
  have h := claim_C3_null_substitute demoHost 0
    (registerSubstitute demoHost 0 demoEnabled "x" JSVal.vnull).1 "x" 3 true
    LoadFn.original ⟨none, 0, none⟩ (by decide) (by decide) (by decide) rfl
  exact ⟨h.1, h.2.1⟩

/-- C5 witness: a numeric substitute argument is rejected with the state
unchanged, and a string argument is stored at the resolved key. -/
theorem claim_C5_witness :
    registerSubstitute demoHost 0 demoEnabled "x" (JSVal.vnum 5) =
      (demoEnabled, Except.error substituteTypeError) ∧
    Dict.find? (registerSubstitute demoHost 0 demoEnabled "x" (JSVal.vstr "y")).1.registeredSubstitutes "x" = some ⟨some "y", 0, none⟩ := by
  refine ⟨?_, ?_⟩
  · exact (claim_C5_substitute_type_guard demoHost 0 demoEnabled "x" (JSVal.vnum 5)).1
      (by decide) demoHost
  · exact ((claim_C5_substitute_type_guard demoHost 0 demoEnabled "x" (JSVal.vstr "y")).2
      (by decide)).2.1

/-- C6 witness: unhook on a native key is rejected with the state unchanged,
while a plain key is registered with an empty observed-paths list. -/
theorem claim_C6_witness :
    registerAllowable demoHost 0 demoEnabled "fs.node" true =
      (demoEnabled, Except.error cannotUnhookNativeError) ∧
    registerAllowable demoHost 0 demoEnabled "y" true =
      ({ demoEnabled with registeredAllowables := Dict.set demoEnabled.registeredAllowables "y" ⟨true, []⟩ },
       Except.ok ()) := by
  refine ⟨?_, ?_⟩
  · exact (claim_C6_native_unhook_guard demoHost 0 demoEnabled "fs.node" true).1 (by decide)
  · exact (claim_C6_native_unhook_guard demoHost 0 demoEnabled "y" true).2 (by decide)

/-- C7 witness: after loading through an unhook allowable for "p/q", the
deregistration evicts "p/q" from the cache and drops the entry. -/
theorem claim_C7_witness :
    Dict.find? (deregisterAllowable demoHost 0 (hookedLoader demoHost 0 (registerAllowable demoHost 0 demoEnabled "p/q" true).1 "p/q" 4 false).1 "p/q").cache "p/q" = none ∧
    Dict.find? (deregisterAllowable demoHost 0 (hookedLoader demoHost 0 (registerAllowable demoHost 0 demoEnabled "p/q" true).1 "p/q" 4 false).1 "p/q").registeredAllowables "p/q" = none := by
  have h := claim_C7_deregister_allowable demoHost 0
    (hookedLoader demoHost 0 (registerAllowable demoHost 0 demoEnabled "p/q" true).1 "p/q" 4 false).1
    "p/q" (by decide) (by decide)
  have hu := h.1 ⟨true, ["p/q"]⟩ (by decide) rfl
  refine ⟨?_, hu.2⟩
  rw [hu.1 "p/q"]
  decide

/-- C8 witness: the concrete clean-cache round trip drops the plain module
loaded in between, carries the loaded native module over, keeps the
pre-enable entries and restores the original load function. -/
theorem claim_C8_witness :
    Dict.find? (disable 0 (runLoads demoHost 0 (enable 0 demoSt0 (some demoCleanOpts)) demoLoads)).cache "m1" = none ∧
    Dict.find? (disable 0 (runLoads demoHost 0 (enable 0 demoSt0 (some demoCleanOpts)) demoLoads)).cache "n.node" = some (JSVal.vstr "module:n.node") ∧
    Dict.find? (disable 0 (runLoads demoHost 0 (enable 0 demoSt0 (some demoCleanOpts)) demoLoads)).cache "old" = some (JSVal.vnum 1) ∧
    (disable 0 (runLoads demoHost 0 (enable 0 demoSt0 (some demoCleanOpts)) demoLoads)).mLoad = LoadFn.original := by
  have h := claim_C8_clean_cache_roundtrip demoHost 0 0 0 demoSt0 (some demoCleanOpts)
    demoLoads rfl rfl
  refine ⟨?_, ?_, ?_, h.2.1⟩
  · rw [h.1 "m1"]; decide
  · rw [h.1 "n.node"]; decide
  · rw [h.1 "old"]; decide

/-- C9 witness: a mock registered through the instance with parent 3 is
returned by a load through the instance with parent 8, and deregisterAll
through parent 8 clears the mock registry. -/
theorem claim_C9_witness :
    hookedLoader demoHost 8 (registerMock demoHost 3 demoEnabled "w" (JSVal.vobj 1)) "w" 5 false =
      (registerMock demoHost 3 demoEnabled "w" (JSVal.vobj 1), Except.ok (JSVal.vobj 1)) ∧
    (deregisterAll 8 (registerMock demoHost 3 demoEnabled "w" (JSVal.vobj 1))).registeredMocks = [] := by
  have h := claim_C9_shared_registries demoHost 3 8 demoEnabled "w" (JSVal.vobj 1)
    LoadFn.original (by decide)
  exact ⟨h.1 "w" 5 false rfl, h.2.1⟩

/-- C10 witness: before enable, re-registering a mock for an already
registered key emits no warning. -/
theorem claim_C10_witness :
    (registerMock demoHost 0 (registerMock demoHost 0 demoSt0 "z" (JSVal.vnum 1)) "z" (JSVal.vnum 2)).warnings = [] := by
  have h := claim_C10_defaults_inert_before_enable demoHost 0
    (registerMock demoHost 0 demoSt0 "z" (JSVal.vnum 1)) "z" (JSVal.vnum 2) "s" []
    (by decide)
  rw [h.2.1]
  decide

end Mockery
